import Mathlib

/-!
# Verification of the Vivokey Codes OATH protocol client

Shallow embedding of the protocol client of `vivokey_codes.py` (class
`pcsc_oath` and the surrounding plumbing) in Lean 4, together with proofs
about the specification claims.

Python byte strings and `smartcard` APDU buffers are lists of machine
bytes; we embed them as `List Nat` (every value delivered by a real PC/SC
stack is `< 256`).  Python integers are unbounded, so `Nat` arithmetic
with explicit `>>> / &&& / |||` matches the source exactly.
-/

namespace Vivokey

/-- Python list-of-byte buffers (`list(data)` / `bytes` in the source). -/
abbrev Bytes := List Nat

/-! ## TLV codec (`pcsc_oath._tlv` / `pcsc_oath._untlv`) -/

/-- `pcsc_oath._tlv`: `[tag] + ([l] if l < 0xff else [0xff, l >> 8, l & 0xff])
+ list(data)`. -/
def tlv (tag : Nat) (data : Bytes) : Bytes :=
  let l := data.length
  tag :: ((if l < 0xff then [l] else [0xff, l >>> 8, l &&& 0xff]) ++ data)

/-- The body of the `while data and not errmsg` loop of
`pcsc_oath._untlv` (`do_dict = False`): repeatedly strip a tag/length
header and a value of that exact length.  Every iteration consumes at
least two bytes, so `fuel = data.length` (supplied by the `untlv`
wrapper) is never exhausted; the fuel-out branch is unreachable. -/
def untlvGo : Nat → Bytes → Except String (List (Nat × Bytes))
  | _, [] => .ok []
  | 0, _ :: _ => .error "TLV too short in APDU response"
  | _ + 1, [_] => .error "TLV too short in APDU response"
  | fuel + 1, t :: l :: rest =>
    if l = 0xff then
      match rest with
      | hi :: lo :: rest2 =>
        let len := (hi <<< 8) ||| lo
        let v := rest2.take len
        if v.length < len then .error "TLV value too short in APDU response"
        else (untlvGo fuel (rest2.drop len)).map (fun ld => (t, v) :: ld)
      | _ => .error "TLV too short in APDU response"
    else
      let v := rest.take l
      if v.length < l then .error "TLV value too short in APDU response"
      else (untlvGo fuel (rest.drop l)).map (fun ld => (t, v) :: ld)

/-- `pcsc_oath._untlv` with `do_dict = False`.  The source returns the
pair `(errmsg, None)` or `(None, ld)`; we embed that sum as
`Except String`. -/
def untlv (data : Bytes) : Except String (List (Nat × Bytes)) :=
  untlvGo data.length data

/-- Overwrite-or-append insertion, the effect of `ld[t] = v` on a Python
dict keyed by tags. -/
def dictInsert (d : List (Nat × Bytes)) (t : Nat) (v : Bytes) :
    List (Nat × Bytes) :=
  if d.any (fun p => p.1 == t) then
    d.map (fun p => if p.1 == t then (t, v) else p)
  else d ++ [(t, v)]

/-- Folding the decoded pairs left to right through `ld[t] = v` builds the
dictionary `_untlv` returns when `do_dict` is asserted. -/
def dictOf (l : List (Nat × Bytes)) : List (Nat × Bytes) :=
  l.foldl (fun d p => dictInsert d p.1 p.2) []

/-- `pcsc_oath._untlv` with `do_dict = True`. -/
def untlvDict (data : Bytes) : Except String (List (Nat × Bytes)) :=
  (untlv data).map dictOf

/-- `tlvs.get(tag, None)` / `tag in tlvs` on the decoded dictionary. -/
def dictGet (d : List (Nat × Bytes)) (t : Nat) : Option Bytes :=
  (d.find? (fun p => p.1 == t)).map (fun p => p.2)

/-! ## Code decoding (`get_codes`, CODE/TRUNCATED branch) -/

/-- `int.from_bytes(l, "big")`. -/
def beBytes (l : Bytes) : Nat := l.foldl (fun a b => a * 256 + b) 0

/-- Decimal digits of `n`, least significant first.  Each step divides
by 10, so the `decDigitsRev` wrapper's fuel `n + 1` is never exhausted
and the fuel-out branch is unreachable. -/
def decDigitsGo : Nat → Nat → List Char
  | 0, _ => []
  | fuel + 1, n =>
    if n < 10 then [Nat.digitChar n]
    else Nat.digitChar (n % 10) :: decDigitsGo fuel (n / 10)

/-- Decimal digits of `n`, least significant first: the embedding of
Python `str()` on a non-negative integer (reversed). -/
def decDigitsRev (n : Nat) : List Char := decDigitsGo (n + 1) n

/-- Python `str(n)` for a non-negative integer. -/
def pyStr (n : Nat) : String := String.mk (decDigitsRev n).reverse

/-- Python `s.rjust(w, c)`. -/
def pyRjust (s : String) (w : Nat) (c : Char) : String :=
  if s.length < w then String.mk (List.replicate (w - s.length) c) ++ s else s

/-- The numeric code computed by the TRUNCATED branch:
`str(n % 10 ** v[0]).rjust(v[0], "0")` with
`n = int.from_bytes(v[1:], "big") & 0x7fffffff`. -/
def codeStr (d : Nat) (payload : Bytes) : String :=
  pyRjust (pyStr ((beBytes payload &&& 0x7fffffff) % 10 ^ d)) d '0'

/-- `STEAM_CODE_CHARSET`. -/
def steamCharset : List Char := "23456789BCDFGHJKMNPQRTVWXY".toList

/-- The five iterations of
`stcode += STEAM_CODE_CHARSET[n % len]; n //= len`. -/
def steamCodeAux : Nat → Nat → List Char
  | 0, _ => []
  | k + 1, n =>
    steamCharset.getD (n % steamCharset.length) ' ' ::
      steamCodeAux k (n / steamCharset.length)

/-- The 5-character Steam code derived from the masked integer `n`. -/
def steamCode (n : Nat) : String := String.mk (steamCodeAux 5 n)

/-- Python `s.zfill(w)` on an unsigned digit string, as used by the
spec formula `str(((int(p) & 0x7fffffff) % 10**d)).zfill(d)`. -/
def specZfill (s : String) (w : Nat) : String :=
  if s.length < w then String.mk (List.replicate (w - s.length) '0') ++ s else s

/-- The spec's own formula for the decoded decimal code (§8 of the
spec): mask to 31 bits, reduce mod `10^d`, render in decimal, pad to
`d` characters with `zfill`. -/
def specCodeStr (d : Nat) (payload : Bytes) : String :=
  specZfill (pyStr ((beBytes payload &&& 0x7fffffff) % 10 ^ d)) d

/-! ## NAME parsing (`get_codes`, NAME branch)

The source checks each NAME value with
`re.findall(r"^((.*):)?([^:]*\S)\s*$", v)` and then looks for an explicit
period prefix with `re.match("^([0-9]+)/(.*)$", account)`.  We embed the
exact semantics of these two patterns (Python `re`, no flags): `.` does
not match a newline, `[^:]` matches any character but `':'`, `\S`/`\s`
use Python's 6-character whitespace class, and `$` matches at the end of
the string or just before a final newline. -/

/-- Python's `\s` class. -/
def pyIsSpace (c : Char) : Bool :=
  c == ' ' || c == '\t' || c == '\n' || c == '\r' || c == '\x0b' || c == '\x0c'

/-- Strip trailing Python whitespace. -/
def pyRstrip (s : List Char) : List Char :=
  (s.reverse.dropWhile pyIsSpace).reverse

/-- Group 3 of `^((.*):)?([^:]*\S)\s*$` matched against the text after
the optional `issuer:` part: the text with trailing whitespace stripped,
provided it is nonempty and has no `':'` before its last character
(`[^:]*` cannot cross a colon; the one `\S` character may be a colon). -/
def acctGroup (t : List Char) : Option (List Char) :=
  let g := pyRstrip t
  if g ≠ [] ∧ ':' ∉ g.dropLast then some g else none

/-- All ways to split `s` as `pre ++ ':' :: post`, longest `pre` first:
the candidate group-2 values of `((.*):)?` in backtracking order. -/
def colonSplits (s : List Char) : List (List Char × List Char) :=
  ((List.range s.length).reverse).filterMap fun k =>
    if s.get? k = some ':' then some (s.take k, s.drop (k + 1)) else none

/-- `re.findall(r"^((.*):)?([^:]*\S)\s*$", v)[0][1:]`, i.e. the pair
(group 2, group 3) of the anchored match, or `none` when the regex does
not match.  Group 2 (`(.*)`) is greedy and may not contain a newline, so
the engine picks the rightmost colon split whose left part is
newline-free and whose right part fits `[^:]*\S\s*$`; with no such split
the optional group is dropped. -/
def nameGroups (s : List Char) : Option (List Char × List Char) :=
  match (colonSplits s).find? (fun gp =>
      decide ('\n' ∉ gp.1) && (acctGroup gp.2).isSome) with
  | some gp => some (gp.1, (acctGroup gp.2).getD [])
  | none =>
    match acctGroup s with
    | some g => some ([], g)
    | none => none

/-- `int(ds)` on a nonempty decimal digit string. -/
def natOfDigits (ds : List Char) : Nat :=
  ds.foldl (fun a c => a * 10 + (c.toNat - '0'.toNat)) 0

/-- `re.match("^([0-9]+)/(.*)$", a)`: greedy leading digit run followed
by `'/'`.  Only applied to group 2 of the name regex, which is
newline-free, so the `(.*)$` tail always matches the remainder. -/
def periodSplit (a : List Char) : Option (Nat × List Char) :=
  let ds := a.takeWhile Char.isDigit
  match a.drop ds.length with
  | '/' :: rest => if ds = [] then none else some (natOfDigits ds, rest)
  | _ => none

/-- `v.decode("ascii")`. -/
def decodeAscii (v : Bytes) : Option (List Char) :=
  if v.all (fun b => b < 128) then some (v.map Char.ofNat) else none

/-- The NAME branch of the decode loop (ascii check, the name regex, the
period-prefix extraction).  Yields the local variables
`(account, issuer, account_period)` — note the source binds group 2
(the part before the colon) to `account` and group 3 to `issuer`, and
strips the period prefix from group 2.  The source interpolates the
offending value into the two error messages; we keep the constant text. -/
def parseName (v : Bytes) (dfltPeriod : Nat) :
    Except String (List Char × List Char × Nat) :=
  match decodeAscii v with
  | none => .error "invalid name record in APDU"
  | some s =>
    match nameGroups s with
    | none => .error "malformed name record in APDU"
    | some (acct, iss) =>
      match periodSplit acct with
      | some (p, rest) => .ok (rest, iss, p)
      | none => .ok (acct, iss, dfltPeriod)

/-! ## APDU transport (`pcsc_oath._send_apdu`)

`sc.SCardTransmit` is the only transport primitive; one `get_codes`
transaction consumes a finite interaction script of transmit outcomes
(either a raised exception's `repr` text or an `(r, response)` pair).
Running past the end of the script is modelled like a raised transport
exception (every terminating run of the Python code consumes a finite
number of transmissions, so every real behaviour is some finite
script). -/

/-- Outcome of one `sc.SCardTransmit` call. -/
abbrev Tx := Except String (Int × Bytes)

/-- The last two bytes `response[-2:]` of a response. -/
def last2 (l : Bytes) : Bytes := l.drop (l.length - 2)

/-- All but the status bytes, `response[:-2]`. -/
def body2 (l : Bytes) : Bytes := l.take (l.length - 2)

/-- The `while response[-2] == SW1_MORE_DATA` loop of `_send_apdu`:
keep transmitting `[0, INS_SEND_REMAINING, 0, 0]` and collating
`response[:-2] + chunk` while the trailing status requests more data.
Returns either `(errmsg, critical)` or the final `(r, response)`,
together with the unconsumed script. -/
def collate (r : Int) (resp : Bytes) (script : List Tx) :
    Except (String × Option Bool) (Int × Bytes) × List Tx :=
  if resp.getD (resp.length - 2) 0 == 0x61 then
    match script with
    | [] => (.error ("script exhausted", some true), [])
    | .error e :: rest => (.error (e, some true), rest)
    | .ok (r2, chunk) :: rest =>
      if chunk.length < 2 then (.error ("APDU response too short", some false), rest)
      else collate r2 (body2 resp ++ chunk) rest
  else (.ok (r, resp), script)

/-- `pcsc_oath._send_apdu`: one transmit, then the collation loop.
The command bytes do not influence the scripted card, but call sites
construct them faithfully. -/
def sendApdu (script : List Tx) (_apdu : Bytes) :
    Except (String × Option Bool) (Int × Bytes) × List Tx :=
  match script with
  | [] => (.error ("script exhausted", some true), [])
  | .error e :: rest => (.error (e, some true), rest)
  | .ok (r, resp) :: rest =>
    if resp.length < 2 then (.error ("APDU response too short", some false), rest)
    else collate r resp rest

/-! ## Status words, instructions and fixed data of `pcsc_oath` -/

def SW_OK : Bytes := [0x90, 0x00]
def SW_AUTH_REQUIRED : Bytes := [0x69, 0x82]
def SW_AUTH_FAILED : Bytes := [0x69, 0x84]
def SW_WRONG_SYNTAX : Bytes := [0x6a, 0x80]
def SW_NOT_FOUND : Bytes := [0x6a, 0x82]

/-- `DEFAULT_OATH_AIDS` (Vivokey, then Yubikey), as byte lists. -/
def oathAids : List Bytes :=
  [[0xa0, 0x00, 0x00, 0x07, 0x47, 0x00, 0x61, 0xfc, 0x54, 0xd5],
   [0xa0, 0x00, 0x00, 0x05, 0x27, 0x21, 0x01]]

/-- `"{:02X}"` formatting of one byte. -/
def hexDigit (n : Nat) : Char :=
  if n < 10 then Char.ofNat (48 + n) else Char.ofNat (55 + n)

def hex2 (b : Nat) : String := String.mk [hexDigit (b / 16 % 16), hexDigit (b % 16)]

/-- `pack(">q", x)` for the in-range non-negative values that occur
(`int(now // period)`): 8 big-endian bytes. -/
def be8 (x : Nat) : Bytes :=
  [(x >>> 56) % 256, (x >>> 48) % 256, (x >>> 40) % 256, (x >>> 32) % 256,
   (x >>> 24) % 256, (x >>> 16) % 256, (x >>> 8) % 256, x % 256]

/-! ## The period work queue and the decode loop of `get_codes` -/

/-- One entry appended to `oath_codes`:
`[name[0], name[1], code-or-steam-code, deprecation_tstamp, remaining]`.
`name[0]` is the source's local `account` variable (the text before the
colon with its period prefix stripped — the issuer as displayed) and
`name[1]` its local `issuer` variable (the text after the colon). -/
structure Entry where
  e0 : String
  e1 : String
  code : String
  dep : Nat
  rem : Nat
deriving DecidableEq

/-- The mutable locals of the period work-queue loop:
`periods_to_request`, `periods_requested`, `oath_codes`, the enumerate
index `i` (Python int, `-1` when a round decodes no TLVs) and the
cross-iteration NAME-branch locals `account`, `issuer`,
`account_period`. -/
structure PLState where
  toReq : List Nat
  reqd : List Nat
  codes : List Entry
  i : Int
  nmA : List Char
  nmB : List Char
  accPer : Nat

/-- Outcome of one step of the enumerate loop over the decoded
`(tag, value)` pairs: either a `break` with an error message, or
continue with the updated state. -/
inductive StepRes where
  | fail (m : String) (st : PLState)
  | next (st : PLState)

/-- The state carried out of a step. -/
def StepRes.state : StepRes → PLState
  | .fail _ st => st
  | .next st => st

/-- One iteration of the enumerate loop (source lines 1256-1338) for
the pair `(t, v)` at enumerate index `k`: the parity-position tag
check, the NAME branch (parse, period-prefix extraction, enqueueing of
an unseen period), and the CODE branch (skip when the period differs
from the round's, else decode and append). -/
def procStep (period dflt now k t : Nat) (v : Bytes) (st0 : PLState) : StepRes :=
  let st := { st0 with i := (k : Int) }
  if t ≠ (if k % 2 == 0 then 0x71 else 0x76) then
    .fail "Malformed APDU response: unexpected tag" st
  else if t == 0x71 then
    match parseName v dflt with
    | .error m => .fail m st
    | .ok (nmA, nmB, accPer) =>
      let toReq :=
        if accPer ≠ period ∧ accPer ∉ st.reqd ∧ accPer ∉ st.toReq then
          st.toReq ++ [accPer]
        else st.toReq
      .next { st with nmA := nmA, nmB := nmB, accPer := accPer, toReq := toReq }
  else
    if st.accPer ≠ period then .next st
    else
      match v with
      | [] => .fail "empty code record in APDU" st
      | d :: payload =>
        if ¬ (6 ≤ d ∧ d ≤ 10) then .fail "malformed code record in APDU" st
        else
          let n := beBytes payload &&& 0x7fffffff
          let dep := (now / period + 1) * period
          let entry : Entry :=
            ⟨String.mk st.nmA, String.mk st.nmB,
             if String.mk st.nmA = "Steam" then steamCode n else codeStr d payload,
             dep, dep - now⟩
          .next { st with codes := st.codes ++ [entry] }

/-- The enumerate loop over the decoded `(tag, value)` pairs of one
CALCULATE_ALL response (source lines 1255-1338).  `k` is the enumerate
index.  Returns the updated state and the `errmsg` of a `break`, if
any; state changes made before a break are kept, exactly as in the
source. -/
def procTlvs (period dflt now : Nat) :
    Nat → List (Nat × Bytes) → PLState → PLState × Option String
  | _, [], st => (st, none)
  | k, (t, v) :: rest, st =>
    match procStep period dflt now k t v st with
    | .fail m st1 => (st1, some m)
    | .next st1 => procTlvs period dflt now (k + 1) rest st1

/-- Result of the period work-queue loop: the `errmsg` it breaks with
(if any), the `errcritical` assignment it performs (if any — only the
CALCULATE_ALL transmit-failure sites assign it), and the final
`periods_requested`, `oath_codes`, `i` and unconsumed script. -/
structure PLOut where
  errmsg : Option String
  critUpd : Option (Option Bool)
  reqd : List Nat
  codes : List Entry
  i : Int
  script : List Tx

/-- The `while periods_to_request and periods_to_request[0] not in
periods_requested` loop (source lines 1209-1341).  A round with
`period == 0` hits `int(now // period)` and raises an uncaught
`ZeroDivisionError`, which we surface as the `Except.error` of the
whole call.  Every iteration that recurses consumed at least one
scripted transmission, so the `periodLoop` wrapper's fuel
`script.length + 1` is never exhausted; the fuel-out branch returns
the loop-done state and is unreachable. -/
def periodLoopGo (dflt : Nat) :
    Nat → List Nat → List Tx → PLState → Except String PLOut
  | 0, _, script, st => .ok ⟨none, none, st.reqd, st.codes, st.i, script⟩
  | fuel + 1, times, script, st =>
    match st.toReq with
    | [] => .ok ⟨none, none, st.reqd, st.codes, st.i, script⟩
    | p :: rest =>
      if p ∈ st.reqd then .ok ⟨none, none, st.reqd, st.codes, st.i, script⟩
      else
        let reqd := st.reqd ++ [p]
        let now := times.headD 0
        if p = 0 then .error "ZeroDivisionError"
        else
          let ctlv := tlv 0x74 (be8 (now / p))
          match sendApdu script ([0, 0xa4, 0, 0x01, ctlv.length] ++ ctlv) with
          | (.error (m, ec), s1) =>
            .ok ⟨some ("error transmitting CALCULATE_ALL command: " ++ m),
                 some ec, reqd, st.codes, st.i, s1⟩
          | (.ok (r, resp), s1) =>
            if r ≠ 0 then
              .ok ⟨some "error transmitting CALCULATE_ALL command",
                   some none, reqd, st.codes, st.i, s1⟩
            else if last2 resp ≠ SW_OK then
              if last2 resp = SW_AUTH_REQUIRED then
                .ok ⟨some "authentication required", none, reqd, st.codes, st.i, s1⟩
              else
                .ok ⟨some ("error " ++ hex2 (resp.getD (resp.length - 2) 0) ++
                      hex2 (resp.getD (resp.length - 1) 0) ++
                      " from CALCULATE_ALL command"),
                     some (some false), reqd, st.codes, st.i, s1⟩
            else
              match untlv (body2 resp) with
              | .error m => .ok ⟨some m, none, reqd, st.codes, st.i, s1⟩
              | .ok tlvs =>
                match procTlvs p dflt now 0 tlvs
                    { st with toReq := rest, reqd := reqd, i := -1 } with
                | (rst, some m) => .ok ⟨some m, none, rst.reqd, rst.codes, rst.i, s1⟩
                | (rst, none) => periodLoopGo dflt fuel times.tail s1 rst

/-- The period work-queue loop with its canonical fuel. -/
def periodLoop (dflt : Nat) (times : List Nat) (script : List Tx)
    (st : PLState) : Except String PLOut :=
  periodLoopGo dflt (script.length + 1) times script st

/-! ## AID selection (`for aid in self.oath_aids`, lines 1090-1120) -/

/-- Outcome of the AID selection loop: the `errmsg`/`errcritical`
assignments it leaves behind, the accepted SELECT response (valid when
`errmsg = none`), and whether any candidate was rejected with
NOT_FOUND before the loop ended (this leaves `errcritical = False`
behind even on success). -/
structure SelOut where
  errmsg : Option String
  critUpd : Option (Option Bool)
  resp : Bytes
  sawNotFound : Bool
  script : List Tx

/-- The AID selection loop.  Only ever invoked on the fixed nonempty
`oathAids`, so the `[]` case is the loop running off the end after a
NOT_FOUND iteration, which leaves that iteration's
`errmsg`/`errcritical` in place. -/
def selectAids (script : List Tx) (sawNF : Bool) : List Bytes → SelOut
  | [] => ⟨some "OATH application not found", some (some false), [], sawNF, script⟩
  | aid :: rest =>
    match sendApdu script ([0, 0xa4, 0x04, 0x00, aid.length] ++ aid) with
    | (.error (m, ec), s1) =>
      ⟨some ("error transmitting OATH AID selection command: " ++ m),
       some ec, [], sawNF, s1⟩
    | (.ok (r, resp), s1) =>
      if r ≠ 0 then
        ⟨some "error transmitting OATH AID selection command", some none, [], sawNF, s1⟩
      else if last2 resp = SW_OK then
        ⟨none, if sawNF then some (some false) else none, resp, sawNF, s1⟩
      else if last2 resp ≠ SW_NOT_FOUND then
        ⟨some ("error " ++ hex2 (resp.getD (resp.length - 2) 0) ++
          hex2 (resp.getD (resp.length - 1) 0) ++ " from OATH AID selection command"),
         some (some false), [], sawNF, s1⟩
      else selectAids s1 true rest

/-! ## Authentication (lines 1137-1202) -/

/-- Outcome of the password/VALIDATE section. -/
inductive AuthOut where
  | pass (script : List Tx)
  | fail (errmsg : String) (critUpd : Option (Option Bool)) (script : List Tx)

/-- The password validation section.  `pwd` is `self.oath_pwd` (`""`
stands for Python `None` or the empty string, both falsy); `kdf` and
`hm` are the library primitives `hashlib.pbkdf2_hmac("sha1", ·, ·,
1000, 16)` and `HMAC-SHA1`; `rand` is the 8-byte local challenge drawn
from `randint`.  A non-ASCII password raises `UnicodeEncodeError` at
`self.oath_pwd.encode("ascii")`, uncaught. -/
def authPhase (pwd : String) (kdf : String → Bytes → Bytes)
    (hm : Bytes → Bytes → Bytes) (rand : Bytes) (salt : Bytes)
    (chal : Option Bytes) (script : List Tx) : Except String AuthOut :=
  if pwd ≠ "" then
    match chal with
    | none => .ok (.fail "password set but no password required" none script)
    | some c =>
      if ¬ pwd.toList.all (fun ch => ch.toNat < 128) then .error "UnicodeEncodeError"
      else
        let key := kdf pwd salt
        let dataTlv := tlv 0x75 (hm key c) ++ tlv 0x74 rand
        match sendApdu script ([0, 0xa3, 0, 0, dataTlv.length] ++ dataTlv) with
        | (.error (m, ec), s1) =>
          .ok (.fail ("error transmitting VALIDATE command: " ++ m) (some ec) s1)
        | (.ok (r, vresp), s1) =>
          if r ≠ 0 then
            .ok (.fail "error transmitting VALIDATE command" (some none) s1)
          else if last2 vresp ≠ SW_OK then
            if last2 vresp = SW_AUTH_FAILED ∨ last2 vresp = SW_WRONG_SYNTAX then
              .ok (.fail "authentication failed" none s1)
            else
              .ok (.fail ("error " ++ hex2 (vresp.getD (vresp.length - 2) 0) ++
                    hex2 (vresp.getD (vresp.length - 1) 0) ++
                    " from VALIDATE selection command") none s1)
          else
            match untlvDict (body2 vresp) with
            | .error m => .ok (.fail m none s1)
            | .ok tlvs2 =>
              match dictGet tlvs2 0x75 with
              | none =>
                .ok (.fail
                  "Malformed APDU response: missing response from VALIDATE command response"
                  none s1)
              | some tresp =>
                if tresp ≠ hm key rand then
                  .ok (.fail "response from VALIDATE command does not match verification"
                    none s1)
                else .ok (.pass s1)
  else
    match chal with
    | some _ => .ok (.fail "password required" none script)
    | none => .ok (.pass script)

/-! ## Reader resolution (lines 1044-1057, `set_readers_regex`)

The configured string is embedded verbatim into the pattern
`"^.*{}.*$".format(reader)` and matched with `re.match(..., re.I)`.
For a configured string free of regex metacharacters (all strings the
claims concern: `""` and the default `"0"`) this is exactly a
case-insensitive substring test on the reader name, except that `.`
does not match a newline and `$` may also match just before one final
newline; `readerMatch` embeds precisely that. -/

def dropFinalNewline (l : List Char) : List Char :=
  if l.getLast? = some '\n' then l.dropLast else l

/-- `p` occurs as a contiguous run inside the second list. -/
def containsSub (p : List Char) : List Char → Bool
  | [] => p.isEmpty
  | c :: cs => p.isPrefixOf (c :: cs) || containsSub p cs

/-- `re.match("^.*" + patt + ".*$", r, re.I)` for a metacharacter-free
`patt`. -/
def readerMatch (patt r : String) : Bool :=
  let s := dropFinalNewline r.toList
  decide ('\n' ∉ s) &&
    containsSub (patt.toList.map Char.toLower) (s.map Char.toLower)

/-- The `for r in self.all_readers: if re.match(...): ... break / else
None` scan: first matching reader, if any. -/
def resolveReader (patt : String) (readers : List String) : Option String :=
  readers.find? (readerMatch patt)

/-! ## The `pcsc_oath` instance state and the external world -/

/-- The attributes of the (single) `pcsc_oath` instance that persist
across `get_codes` calls.  `patt` is the user string embedded in
`readers_regex = "^.*{}.*$".format(...)`; the constructor's initial
`"^.*$"` matches exactly what the empty embedded string does, so the
initial `patt` is `""`.  `oath_pwd = ""` stands for Python `None` or
`""` (both falsy). -/
structure OathState where
  patt : String
  all_readers : List String
  reader : Option String
  hcontext : Option Nat
  oath_pwd : String
  default_period : Nat
deriving DecidableEq

/-- `pcsc_oath()` as constructed by `pcsc_codes_reader`. -/
def initState : OathState :=
  ⟨"", [], none, none, "", 30⟩

/-- `pcsc_oath.set_readers_regex`: store the string and force the
reader to be re-resolved. -/
def set_readers_regex (st : OathState) (reader : String) : OathState :=
  { st with patt := reader, all_readers := [] }

/-- `pcsc_oath.set_oath_pwd`. -/
def set_oath_pwd (st : OathState) (pwd : String) : OathState :=
  { st with oath_pwd := pwd }

/-- `default_reader` (line 31). -/
def default_reader : String := "0"

/-- The `SETRDR` command handler of `pcsc_codes_reader` (line 1390):
`po.set_readers_regex(arg if arg else default_reader)`. -/
def setrdrCommand (st : OathState) (arg : String) : OathState :=
  set_readers_regex st (if arg ≠ "" then arg else default_reader)

/-- One transaction's external world: outcomes of the PC/SC calls, the
scripted card transmissions, the successive `time()` readings (one per
period round), the 8 `randint` bytes, and the two crypto primitives
(`pbkdf2_hmac` and `HMAC-SHA1`), which `get_codes` only composes. -/
structure World where
  establish : Except String (Int × Nat)
  listReaders : Except String (List String)
  connect : Except String (Int × Nat × Nat)
  transmits : List Tx
  times : List Nat
  rand : Bytes
  kdf : String → Bytes → Bytes
  hmacF : Bytes → Bytes → Bytes

/-- Resource events of one transaction, in order: a successful
`SCardConnect` (`r == SCARD_S_SUCCESS`), `SCardDisconnect`,
`SCardReleaseContext`, and a SELECT rejected with NOT_FOUND. -/
inductive Ev where
  | connectOk
  | disconnect
  | release
  | selectNotFound
deriving DecidableEq

/-- The value of one `get_codes` call: the returned triple
`(errmsg, errcritical, oath_codes)`, the instance state after the
call, the resource-event trace, and the final `periods_requested`
(`[]` when the period loop was never reached). -/
structure RunOut where
  errmsg : Option String
  errcritical : Option Bool
  codes : List Entry
  state : OathState
  trace : List Ev
  reqd : List Nat
deriving DecidableEq

/-- The cleanup block at the top of the `while True` loop (lines
997-1013), reached via `continue`: disconnect the card and/or release
and discard the context. -/
def cleanup (st : OathState) (trace : List Ev) (disc rel : Bool) :
    OathState × List Ev :=
  let trace := if disc then trace ++ [.disconnect] else trace
  if rel then ({ st with hcontext := none }, trace ++ [.release])
  else (st, trace)

/-- Sorting key: `(e[0] + e[1]).upper()`. -/
def entryKey (e : Entry) : List Char :=
  (e.e0 ++ e.e1).toList.map Char.toUpper

/-- Lexicographic `≤` on code-point lists: Python string comparison. -/
def charListLe : List Char → List Char → Bool
  | [], _ => true
  | _ :: _, [] => false
  | a :: as, b :: bs => if a = b then charListLe as bs else decide (a < b)

/-- Stable insertion of an element after every entry whose key is `≤`
its own. -/
def insEntry (x : Entry) : List Entry → List Entry
  | [] => [x]
  | y :: ys =>
    if charListLe (entryKey y) (entryKey x) then y :: insEntry x ys
    else x :: y :: ys

/-- `sorted(oath_codes, key = lambda e: (e[0] + e[1]).upper())`:
Python's sort is stable and its key order here is a total preorder, so
the stable insertion sort below computes the identical list. -/
def sortEntries (l : List Entry) : List Entry :=
  l.foldl (fun acc x => insEntry x acc) []

/-- `pcsc_oath.get_codes`.  Mirrors the `while True` body: each failure
site either `break`s straight out of the loop (no cleanup) or
`continue`s into the cleanup block; `Except.error` is an uncaught
Python exception escaping `get_codes`. -/
def get_codes (st : OathState) (w : World) : Except String RunOut :=
  match (if st.hcontext = none ∨ st.hcontext = some 0 then
           match w.establish with
           | .error e => .error e
           | .ok (r, h) => .ok (some ({ st with hcontext := some h }, r))
         else (.ok none : Except String (Option (OathState × Int)))) with
  | .error e =>
    -- exception from SCardEstablishContext: break, no cleanup
    .ok ⟨some ("error getting PC/SC resource manager context: " ++ e),
         some true, [], st, [], []⟩
  | .ok estOut =>
    let st1 := (estOut.map Prod.fst).getD st
    if estOut.elim false (fun p => decide (p.2 ≠ 0)) then
      -- r != SCARD_S_SUCCESS: release_ctx = True; continue
      let (st2, tr) := cleanup st1 [] false true
      .ok ⟨some "cannot establish PC/SC resource manager context",
           some true, [], st2, tr, []⟩
    else
      match w.listReaders with
      | .error e =>
        let (st2, tr) := cleanup st1 [] false true
        .ok ⟨some ("error getting the list of readers: " ++ e),
             some true, [], st2, tr, []⟩
      | .ok readers =>
        if readers = [] then
          .ok ⟨some "no readers", some true, [],
               { st1 with all_readers := [] }, [], []⟩
        else
          let st2 :=
            if readers ≠ st1.all_readers then
              { st1 with all_readers := readers,
                         reader := resolveReader st1.patt readers }
            else st1
          match st2.reader with
          | none => .ok ⟨some "no matching readers", some true, [], st2, [], []⟩
          | some _ =>
            -- release_ctx = True from here on
            match w.connect with
            | .error e =>
              let (st3, tr) := cleanup st2 [] false true
              .ok ⟨some ("error connecting to the smartcard: " ++ e),
                   some true, [], st3, tr, []⟩
            | .ok (r, _hcard, _proto) =>
              if r ≠ 0 then
                -- break: the cleanup block is skipped, context retained
                .ok ⟨some "error connecting to the smartcard", some false, [],
                     st2, [], []⟩
              else
                -- disconnect_card = True from here on
                let sel := selectAids w.transmits false oathAids
                let tr0 := [Ev.connectOk] ++
                  (if sel.sawNotFound then [Ev.selectNotFound] else [])
                -- errcritical after the selection loop
                let crit1 : Option Bool :=
                  if sel.sawNotFound then some false else some true
                match sel.errmsg with
                | some m =>
                  let (st3, tr) := cleanup st2 tr0 true true
                  .ok ⟨some m, (sel.critUpd.getD (some true)), [], st3, tr, []⟩
                | none =>
                  match untlvDict (body2 sel.resp) with
                  | .error m =>
                    let (st3, tr) := cleanup st2 tr0 true true
                    .ok ⟨some m, crit1, [], st3, tr, []⟩
                  | .ok tlvs =>
                    match dictGet tlvs 0x71 with
                    | none =>
                      let (st3, tr) := cleanup st2 tr0 true true
                      .ok ⟨some ("Malformed APDU response: missing name tag in " ++
                            "AID selection command response"), crit1, [], st3, tr, []⟩
                    | some salt =>
                      let chal := dictGet tlvs 0x74
                      match authPhase st.oath_pwd w.kdf w.hmacF w.rand salt chal
                          sel.script with
                      | .error exc => .error exc
                      | .ok (.fail m cu s1) =>
                        let (st3, tr) := cleanup st2 tr0 true true
                        .ok ⟨some m, cu.getD crit1, [], st3, tr, []⟩
                      | .ok (.pass s1) =>
                        match periodLoop st.default_period w.times s1
                            ⟨[st.default_period], [], [], -1, [], [], 0⟩ with
                        | .error exc => .error exc
                        | .ok pl =>
                          match pl.errmsg with
                          | some m =>
                            let (st3, tr) := cleanup st2 tr0 true true
                            .ok ⟨some m, pl.critUpd.getD crit1, pl.codes, st3,
                                 tr, pl.reqd⟩
                          | none =>
                            if pl.i % 2 = 0 then
                              let (st3, tr) := cleanup st2 tr0 true true
                              .ok ⟨some "Malformed APDU response: odd number of TLVs",
                                   crit1, pl.codes, st3, tr, pl.reqd⟩
                            else
                              -- success: `break`, skipping the cleanup block
                              .ok ⟨none, crit1, sortEntries pl.codes, st2, tr0,
                                   pl.reqd⟩

/-! ## Concrete transaction worlds used to settle the claims -/

/-- ASCII bytes of a string, for building scripted card responses. -/
def strBytes (s : String) : Bytes := s.toList.map Char.toNat

/-- A SELECT response carrying only a name (salt) TLV: applet accepted,
no password required. -/
def selResp : Tx := .ok (0, tlv 0x71 [1, 2, 3, 4] ++ [0x90, 0x00])

/-- A SELECT response carrying a name TLV and a challenge TLV: applet
accepted, password required. -/
def selRespChal : Tx :=
  .ok (0, tlv 0x71 [1, 2, 3, 4] ++ tlv 0x74 [9, 9, 9, 9, 9, 9, 9, 9] ++ [0x90, 0x00])

/-- A world whose PC/SC layer works: context 1 established, the given
readers attached, card connection succeeds, and the card answers from
the given script. -/
def mkW (txs : List Tx) (readers : List String) (times : List Nat) : World :=
  ⟨.ok (0, 1), .ok readers, .ok (0, 7, 1), txs, times, [1, 2, 3, 4, 5, 6, 7, 8],
   fun _ _ => [], fun _ _ => []⟩

/-- A fully successful transaction: applet selected, no password, one
CALCULATE_ALL round with an empty account list. -/
def wSuccess : World := mkW [selResp, .ok (0, [0x90, 0x00])] ["R1"] [1000]

/-- One good NAME/CODE pair followed by a CODE-tagged TLV where a NAME
is expected: the decode loop breaks after having appended one account. -/
def wPartial : World :=
  mkW [selResp,
       .ok (0, tlv 0x71 (strBytes "Acme:alice") ++ tlv 0x76 [6, 1, 2] ++
         tlv 0x76 [6, 1] ++ [0x90, 0x00])] ["R1"] [1000]

/-- A NAME carrying the explicit period prefix `0` (`"0/A:b"`): period 0
is enqueued and the next round divides by zero. -/
def wCrash : World :=
  mkW [selResp,
       .ok (0, tlv 0x71 (strBytes "0/A:b") ++ tlv 0x76 [6, 1] ++ [0x90, 0x00])]
    ["R1"] [1000]

/-- The applet demands a password (challenge present) while none is
configured. -/
def wPwdReq : World := mkW [selRespChal] ["R1"] [1000]

/-- Accounts on periods 30 and 60: the period-30 round discovers
`"60/B:bob"`; the period-60 round references period 30 again
(`"30/A:alice"`). -/
def wC7 : World :=
  mkW [selResp,
       .ok (0, tlv 0x71 (strBytes "60/B:bob") ++ tlv 0x76 [6, 1] ++ [0x90, 0x00]),
       .ok (0, tlv 0x71 (strBytes "30/A:alice") ++ tlv 0x76 [6, 2] ++
         tlv 0x71 (strBytes "60/B:bob") ++ tlv 0x76 [6, 1] ++ [0x90, 0x00])]
    ["R1"] [1000, 1000]

/-- A NAME of the claimed form `issuer:period/account`
(`"Acme:60/alice"`), queried at the default period 30. -/
def wC5 : World :=
  mkW [selResp,
       .ok (0, tlv 0x71 (strBytes "Acme:60/alice") ++ tlv 0x76 [6, 1] ++ [0x90, 0x00])]
    ["R1"] [1000]

/-- No PC/SC readers attached. -/
def wC8 : World := mkW [] [] []

/-- One reader named `"ABC"` attached. -/
def wC9 : World := mkW [] ["ABC"] []

/-! ## Message classification predicates

Used to reason about which error messages each phase of `get_codes`
can produce (the source interpolates dynamic text into some of them,
so they are characterized up to their fixed prefixes). -/

/-- The messages the period work-queue loop can break with. -/
def plBreakMsg (m : String) : Prop :=
  (∃ e, m = "error transmitting CALCULATE_ALL command: " ++ e) ∨
  m = "error transmitting CALCULATE_ALL command" ∨
  m = "authentication required" ∨
  (∃ a b : String, a.length = 2 ∧ b.length = 2 ∧
    m = "error " ++ a ++ b ++ " from CALCULATE_ALL command") ∨
  m = "TLV too short in APDU response" ∨
  m = "TLV value too short in APDU response" ∨
  m = "Malformed APDU response: unexpected tag" ∨
  m = "invalid name record in APDU" ∨ m = "malformed name record in APDU" ∨
  m = "empty code record in APDU" ∨ m = "malformed code record in APDU"

/-- The messages the AID selection loop can fail with. -/
def selBreakMsg (m : String) : Prop :=
  m = "OATH application not found" ∨
  (∃ e, m = "error transmitting OATH AID selection command: " ++ e) ∨
  m = "error transmitting OATH AID selection command" ∨
  (∃ a b : String, a.length = 2 ∧ b.length = 2 ∧
    m = "error " ++ a ++ b ++ " from OATH AID selection command")

/-- The messages the authentication section can fail with without
having assigned `errcritical` (every site except the VALIDATE
transmit failures). -/
def authQuietMsg (m : String) : Prop :=
  m = "password set but no password required" ∨
  m = "password required" ∨
  m = "authentication failed" ∨
  m = "response from VALIDATE command does not match verification" ∨
  m = "Malformed APDU response: missing response from VALIDATE command response" ∨
  m = "TLV too short in APDU response" ∨
  m = "TLV value too short in APDU response" ∨
  (∃ a b : String, a.length = 2 ∧ b.length = 2 ∧
    m = "error " ++ a ++ b ++ " from VALIDATE selection command")

/-! ## Foundational lemmas -/

theorem shift_or_low_byte (l : Nat) : ((l >>> 8) <<< 8) ||| (l &&& 0xff) = l := by
  apply Nat.eq_of_testBit_eq
  intro i
  simp only [Nat.testBit_or, Nat.testBit_shiftLeft, Nat.testBit_shiftRight,
    Nat.testBit_and]
  rcases Nat.lt_or_ge i 8 with hi | hi
  · have h8 : ¬ (8 ≤ i) := by omega
    have : Nat.testBit 0xff i = true := by
      have : (0xff : Nat) = 2 ^ 8 - 1 := by norm_num
      rw [this, Nat.testBit_two_pow_sub_one]
      simpa using hi
    simp [h8, this]
  · have h8 : 8 ≤ i := hi
    have : Nat.testBit 0xff i = false := by
      have : (0xff : Nat) = 2 ^ 8 - 1 := by norm_num
      rw [this, Nat.testBit_two_pow_sub_one]
      simpa using (by omega : ¬ i < 8)
    simp [h8, this, Nat.add_sub_cancel' h8]

theorem untlvGo_nil (fuel : Nat) : untlvGo fuel [] = .ok [] := by
  cases fuel <;> rfl

theorem untlv_tlv (t : Nat) (v : Bytes) : untlv (tlv t v) = .ok [(t, v)] := by
  rcases Nat.lt_or_ge v.length 0xff with h | h
  · have htlv : tlv t v = t :: v.length :: v := by simp [tlv, h]
    rw [untlv, htlv]
    match v, h with
    | [], _ => rfl
    | [a], _ => rfl
    | a :: b :: cs, h =>
      show untlvGo (cs.length + 3 + 1) (t :: (a :: b :: cs).length :: a :: b :: cs) =
        .ok [(t, a :: b :: cs)]
      rw [untlvGo]
      rw [if_neg (by simp at h ⊢; omega : ¬ (a :: b :: cs).length = 0xff)]
      simp only [List.length_cons]
      simp [List.take_succ_cons, List.drop_succ_cons, List.take_length,
        List.drop_length, untlvGo_nil, Except.map]
  · have htlv : tlv t v = t :: 0xff :: (v.length >>> 8) :: (v.length &&& 0xff) :: v := by
      simp [tlv, Nat.not_lt.mpr h]
    rw [untlv, htlv]
    show untlvGo (v.length + 3 + 1)
      (t :: 0xff :: (v.length >>> 8) :: (v.length &&& 0xff) :: v) = .ok [(t, v)]
    rw [untlvGo]
    rw [if_pos rfl]
    simp only [shift_or_low_byte]
    simp [List.take_length, List.drop_length, untlvGo_nil, Except.map]

theorem decDigitsGo_length_le :
    ∀ fuel n d : Nat, n < fuel → 1 ≤ d → n < 10 ^ d →
      (decDigitsGo fuel n).length ≤ d := by
  intro fuel
  induction fuel with
  | zero => intro n d hn _ _; omega
  | succ fuel ih =>
    intro n d hn hd hpow
    rw [decDigitsGo]
    split
    · simpa using hd
    · rename_i hn10
      have hd2 : 2 ≤ d := by
        by_contra h2
        have hd1 : d = 1 := by omega
        subst hd1
        simp at hpow
        omega
      have hfuel : n / 10 < fuel := by
        have := Nat.div_lt_self (by omega : 0 < n) (by omega : 1 < 10)
        omega
      have hpow2 : n / 10 < 10 ^ (d - 1) := by
        rw [Nat.div_lt_iff_lt_mul (by omega : 0 < 10)]
        calc n < 10 ^ d := hpow
          _ = 10 ^ (d - 1) * 10 := by
            rw [← pow_succ]
            congr 1
            omega
      have := ih (n / 10) (d - 1) hfuel (by omega) hpow2
      simp only [List.length_cons]
      omega

theorem pyStr_length_le (d n : Nat) (hn : n < 10 ^ d) (hd : 1 ≤ d) :
    (pyStr n).length ≤ d := by
  have := decDigitsGo_length_le (n + 1) n d (by omega) hd hn
  simpa [pyStr, decDigitsRev, String.length] using this

/-- A string with a fixed prefix at least as long as `q` can only equal
`q` when the suffix is empty and the prefix itself is `q`. -/
theorem string_append_ne (p e q : String) (hpq : p ≠ q) (hlen : q.length ≤ p.length) :
    p ++ e ≠ q := by
  intro h
  have hl := congrArg String.length h
  rw [String.length_append] at hl
  have he2 : e = "" := by
    cases e with
    | mk data =>
      cases data with
      | nil => rfl
      | cons c cs =>
        have hlen2 : (String.mk (c :: cs)).length = cs.length + 1 := rfl
        omega
  subst he2
  rw [String.append_empty] at h
  exact hpq h

theorem except_map_eq_error {α β γ : Type} {f : α → β} {x : Except γ α} {m : γ}
    (h : x.map f = .error m) : x = .error m := by
  cases x with
  | error e => simpa [Except.map] using h
  | ok a => simp [Except.map] at h

/-- `_untlv` fails only with its two fixed messages. -/
theorem untlvGo_error_msg : ∀ (fuel : Nat) (data : Bytes) (m : String),
    untlvGo fuel data = .error m →
    m = "TLV too short in APDU response" ∨
    m = "TLV value too short in APDU response" := by
  intro fuel
  induction fuel with
  | zero =>
    intro data m h
    match data with
    | [] => simp [untlvGo] at h
    | x :: xs =>
      rw [untlvGo] at h
      injection h with h
      exact Or.inl h.symm
  | succ fuel ih =>
    intro data m h
    match data with
    | [] => simp [untlvGo] at h
    | [x] =>
      rw [untlvGo] at h
      injection h with h
      exact Or.inl h.symm
    | t :: l :: rest =>
      match rest with
      | [] =>
        rw [untlvGo] at h
        · split at h
          · injection h with h; exact Or.inl h.symm
          · simp only [List.take_nil, List.length_nil, List.drop_nil] at h
            split at h
            · injection h with h; exact Or.inr h.symm
            · exact ih _ _ (except_map_eq_error h)
        · simp
      | [x] =>
        rw [untlvGo] at h
        · split at h
          · injection h with h; exact Or.inl h.symm
          · simp only [] at h
            split at h
            · injection h with h; exact Or.inr h.symm
            · exact ih _ _ (except_map_eq_error h)
        · simp
      | x :: y :: rest2 =>
        rw [untlvGo] at h
        split at h
        · simp only [] at h
          split at h
          · injection h with h; exact Or.inr h.symm
          · exact ih _ _ (except_map_eq_error h)
        · simp only [] at h
          split at h
          · injection h with h; exact Or.inr h.symm
          · exact ih _ _ (except_map_eq_error h)

theorem untlv_error_msg (data : Bytes) (m : String) (h : untlv data = .error m) :
    m = "TLV too short in APDU response" ∨
    m = "TLV value too short in APDU response" :=
  untlvGo_error_msg data.length data m h

theorem untlvDict_error_msg (data : Bytes) (m : String)
    (h : untlvDict data = .error m) :
    m = "TLV too short in APDU response" ∨
    m = "TLV value too short in APDU response" :=
  untlv_error_msg data m (except_map_eq_error h)

/-- The NAME branch fails only with its two fixed messages. -/
theorem parseName_error_msg (v : Bytes) (dflt : Nat) (m : String)
    (h : parseName v dflt = .error m) :
    m = "invalid name record in APDU" ∨ m = "malformed name record in APDU" := by
  unfold parseName at h
  split at h
  · injection h with h; exact Or.inl h.symm
  · split at h
    · injection h with h; exact Or.inr h.symm
    · split at h <;> simp at h

/-- One decode step fails only with its five fixed messages. -/
theorem procStep_fail_msg (period dflt now k t : Nat) (v : Bytes) (st : PLState)
    (m : String) (st1 : PLState)
    (h : procStep period dflt now k t v st = .fail m st1) :
    m = "Malformed APDU response: unexpected tag" ∨
    m = "invalid name record in APDU" ∨ m = "malformed name record in APDU" ∨
    m = "empty code record in APDU" ∨ m = "malformed code record in APDU" := by
  unfold procStep at h
  simp only [] at h
  split at h <;>
    (split at h
     · injection h with h1 h2
       exact Or.inl h1.symm
     · split at h
       · split at h
         · rename_i m2 hp
           injection h with h1 h2
           rcases parseName_error_msg v dflt m2 hp with h3 | h3
           · exact Or.inr (Or.inl (h1 ▸ h3))
           · exact Or.inr (Or.inr (Or.inl (h1 ▸ h3)))
         · simp at h
       · split at h
         · simp at h
         · split at h
           · injection h with h1 h2
             exact Or.inr (Or.inr (Or.inr (Or.inl h1.symm)))
           · split at h
             · injection h with h1 h2
               exact Or.inr (Or.inr (Or.inr (Or.inr h1.symm)))
             · simp at h)

/-- A decode step never modifies `periods_requested`. -/
theorem procStep_state_reqd (period dflt now k t : Nat) (v : Bytes) (st : PLState) :
    (procStep period dflt now k t v st).state.reqd = st.reqd := by
  unfold procStep
  simp only []
  repeat' split
  all_goals simp [StepRes.state]

/-- The decode loop of one round fails only with its five fixed
messages. -/
theorem procTlvs_error_msg (period dflt now : Nat) :
    ∀ (tl : List (Nat × Bytes)) (k : Nat) (st : PLState) (m : String),
      (procTlvs period dflt now k tl st).2 = some m →
      m = "Malformed APDU response: unexpected tag" ∨
      m = "invalid name record in APDU" ∨ m = "malformed name record in APDU" ∨
      m = "empty code record in APDU" ∨ m = "malformed code record in APDU" := by
  intro tl
  induction tl with
  | nil => intro k st m h; simp [procTlvs] at h
  | cons p rest ih =>
    intro k st m h
    obtain ⟨t, v⟩ := p
    rw [procTlvs] at h
    split at h
    · rename_i m2 st1 hstep
      simp at h
      exact h ▸ procStep_fail_msg period dflt now k t v st m2 st1 hstep
    · exact ih _ _ _ h

/-- The decode loop never modifies `periods_requested`. -/
theorem procTlvs_reqd (period dflt now : Nat) :
    ∀ (tl : List (Nat × Bytes)) (k : Nat) (st : PLState),
      (procTlvs period dflt now k tl st).1.reqd = st.reqd := by
  intro tl
  induction tl with
  | nil => intro k st; simp [procTlvs]
  | cons p rest ih =>
    intro k st
    obtain ⟨t, v⟩ := p
    rw [procTlvs]
    split
    · rename_i m2 st1 hstep
      have h2 := procStep_state_reqd period dflt now k t v st
      rw [hstep] at h2
      simpa [StepRes.state] using h2
    · rename_i st1 hstep
      have h2 := procStep_state_reqd period dflt now k t v st
      rw [hstep] at h2
      simp only [StepRes.state] at h2
      rw [ih, h2]

/-- Each loop iteration appends a period that the loop guard has just
checked is not yet in `periods_requested`, so the requested list stays
duplicate-free. -/
theorem periodLoopGo_reqd_nodup (dflt : Nat) :
    ∀ (fuel : Nat) (times : List Nat) (script : List Tx) (st : PLState)
      (pl : PLOut), st.reqd.Nodup → periodLoopGo dflt fuel times script st = .ok pl →
      pl.reqd.Nodup := by
  intro fuel
  induction fuel with
  | zero =>
    intro times script st pl hnd h
    rw [periodLoopGo] at h
    injection h with h
    rw [← h]
    exact hnd
  | succ fuel ih =>
    intro times script st pl hnd h
    rw [periodLoopGo] at h
    split at h
    · injection h with h; rw [← h]; exact hnd
    · rename_i p rest hrq
      split at h
      · injection h with h; rw [← h]; exact hnd
      · rename_i hmem
        have hnd2 : (st.reqd ++ [p]).Nodup := by
          apply List.Nodup.append hnd (List.nodup_singleton p)
          intro a ha hb
          simp at hb
          subst hb
          exact hmem ha
        split at h
        · exact absurd h (by simp)
        · simp only [] at h
          split at h
          · injection h with h; rw [← h]; exact hnd2
          · split at h
            · injection h with h; rw [← h]; exact hnd2
            · split at h
              · split at h
                · injection h with h; rw [← h]; exact hnd2
                · injection h with h; rw [← h]; exact hnd2
              · split at h
                · injection h with h; rw [← h]; exact hnd2
                · rename_i tlvs htlvs
                  split at h
                  · rename_i rst m hproc
                    injection h with h
                    rw [← h]
                    have hr := procTlvs_reqd p dflt (times.headD 0) tlvs 0
                      { st with toReq := rest, reqd := st.reqd ++ [p], i := -1 }
                    rw [hproc] at hr
                    have hr2 : rst.reqd = st.reqd ++ [p] := by simpa using hr
                    show rst.reqd.Nodup
                    rw [hr2]
                    exact hnd2
                  · rename_i rst hproc
                    have hr := procTlvs_reqd p dflt (times.headD 0) tlvs 0
                      { st with toReq := rest, reqd := st.reqd ++ [p], i := -1 }
                    rw [hproc] at hr
                    have hr2 : rst.reqd = st.reqd ++ [p] := by simpa using hr
                    exact ih _ _ _ _ (by rw [hr2]; exact hnd2) h

theorem hex2_length (b : Nat) : (hex2 b).length = 2 := rfl

/-- Every message the period loop breaks with is one of its own. -/
theorem periodLoopGo_errmsg (dflt : Nat) :
    ∀ (fuel : Nat) (times : List Nat) (script : List Tx) (st : PLState)
      (pl : PLOut) (m : String),
      periodLoopGo dflt fuel times script st = .ok pl → pl.errmsg = some m →
      plBreakMsg m := by
  intro fuel
  induction fuel with
  | zero =>
    intro times script st pl m h hm
    rw [periodLoopGo] at h
    injection h with h
    rw [← h] at hm
    simp at hm
  | succ fuel ih =>
    intro times script st pl m h hm
    rw [periodLoopGo] at h
    split at h
    · injection h with h; rw [← h] at hm; simp at hm
    · split at h
      · injection h with h; rw [← h] at hm; simp at hm
      · split at h
        · exact absurd h (by simp)
        · simp only [] at h
          split at h
          · injection h with h
            rw [← h] at hm
            simp at hm
            exact Or.inl ⟨_, hm.symm⟩
          · split at h
            · injection h with h
              rw [← h] at hm
              simp at hm
              exact Or.inr (Or.inl hm.symm)
            · split at h
              · split at h
                · injection h with h
                  rw [← h] at hm
                  simp at hm
                  exact Or.inr (Or.inr (Or.inl hm.symm))
                · injection h with h
                  rw [← h] at hm
                  simp at hm
                  exact Or.inr (Or.inr (Or.inr (Or.inl
                    ⟨_, _, hex2_length _, hex2_length _, hm.symm⟩)))
              · split at h
                · rename_i m2 huntlv
                  injection h with h
                  rw [← h] at hm
                  simp at hm
                  rcases untlv_error_msg _ _ huntlv with h2 | h2 <;> rw [← hm, h2]
                  · exact Or.inr (Or.inr (Or.inr (Or.inr (Or.inl rfl))))
                  · exact Or.inr (Or.inr (Or.inr (Or.inr (Or.inr (Or.inl rfl)))))
                · split at h
                  · rename_i rst m2 hproc
                    injection h with h
                    rw [← h] at hm
                    simp at hm
                    have := procTlvs_error_msg _ dflt _ _ _ _ _ (by rw [hproc])
                    rw [hm] at this
                    rcases this with h2 | h2 | h2 | h2 | h2
                    · exact Or.inr (Or.inr (Or.inr (Or.inr (Or.inr (Or.inr (Or.inl h2))))))
                    · exact Or.inr (Or.inr (Or.inr (Or.inr (Or.inr (Or.inr (Or.inr (Or.inl h2)))))))
                    · exact Or.inr (Or.inr (Or.inr (Or.inr (Or.inr (Or.inr (Or.inr (Or.inr (Or.inl h2))))))))
                    · exact Or.inr (Or.inr (Or.inr (Or.inr (Or.inr (Or.inr (Or.inr (Or.inr (Or.inr (Or.inl h2)))))))))
                    · exact Or.inr (Or.inr (Or.inr (Or.inr (Or.inr (Or.inr (Or.inr (Or.inr (Or.inr (Or.inr h2)))))))))
                  · exact ih _ _ _ _ _ h hm

/-- Every message the AID selection loop fails with is one of its
own. -/
theorem selectAids_fail_msg :
    ∀ (aids : List Bytes) (script : List Tx) (sNF : Bool) (m : String),
      (selectAids script sNF aids).errmsg = some m → selBreakMsg m := by
  intro aids
  induction aids with
  | nil =>
    intro script sNF m h
    rw [selectAids] at h
    simp at h
    exact Or.inl h.symm
  | cons aid rest ih =>
    intro script sNF m h
    rw [selectAids] at h
    split at h
    · simp at h
      exact Or.inr (Or.inl ⟨_, h.symm⟩)
    · split at h
      · simp at h
        exact Or.inr (Or.inr (Or.inl h.symm))
      · split at h
        · simp at h
        · split at h
          · simp at h
            exact Or.inr (Or.inr (Or.inr ⟨_, _, hex2_length _, hex2_length _, h.symm⟩))
          · exact ih _ _ _ h

/-- Classification of the authentication section's failures: either
one of the fixed failure messages with no `errcritical` assignment, or
a VALIDATE transmit failure (whose message carries the fixed transmit
prefix). -/
theorem authPhase_fail (pwd : String) (kdf : String → Bytes → Bytes)
    (hm0 : Bytes → Bytes → Bytes) (rand salt : Bytes) (chal : Option Bytes)
    (script : List Tx) (m : String) (cu : Option (Option Bool)) (s1 : List Tx)
    (h : authPhase pwd kdf hm0 rand salt chal script = .ok (.fail m cu s1)) :
    (authQuietMsg m ∧ cu = none) ∨
    (∃ e, m = "error transmitting VALIDATE command: " ++ e) ∨
    m = "error transmitting VALIDATE command" := by
  unfold authPhase at h
  split at h
  · split at h
    · injection h with h
      injection h with h1 h2 h3
      exact Or.inl ⟨Or.inl h1.symm, h2.symm⟩
    · split at h
      · simp at h
      · simp only [] at h
        split at h
        · injection h with h
          injection h with h1 h2 h3
          exact Or.inr (Or.inl ⟨_, h1.symm⟩)
        · split at h
          · injection h with h
            injection h with h1 h2 h3
            rw [← h2]
            exact Or.inr (Or.inr h1.symm)
          · split at h
            · split at h
              · injection h with h
                injection h with h1 h2 h3
                exact Or.inl ⟨Or.inr (Or.inr (Or.inl h1.symm)), h2.symm⟩
              · injection h with h
                injection h with h1 h2 h3
                exact Or.inl ⟨Or.inr (Or.inr (Or.inr (Or.inr (Or.inr (Or.inr
                  (Or.inr ⟨_, _, hex2_length _, hex2_length _, h1.symm⟩)))))),
                  h2.symm⟩
            · split at h
              · rename_i m2 hdict
                injection h with h
                injection h with h1 h2 h3
                rcases untlvDict_error_msg _ _ hdict with h4 | h4
                · exact Or.inl ⟨Or.inr (Or.inr (Or.inr (Or.inr (Or.inr
                    (Or.inl (h1 ▸ h4)))))), h2.symm⟩
                · exact Or.inl ⟨Or.inr (Or.inr (Or.inr (Or.inr (Or.inr (Or.inr
                    (Or.inl (h1 ▸ h4))))))), h2.symm⟩
              · split at h
                · injection h with h
                  injection h with h1 h2 h3
                  exact Or.inl ⟨Or.inr (Or.inr (Or.inr (Or.inr (Or.inl h1.symm)))),
                    h2.symm⟩
                · split at h
                  · injection h with h
                    injection h with h1 h2 h3
                    exact Or.inl ⟨Or.inr (Or.inr (Or.inr (Or.inl h1.symm))), h2.symm⟩
                  · simp at h
  · split at h
    · injection h with h
      injection h with h1 h2 h3
      exact Or.inl ⟨Or.inr (Or.inl h1.symm), h2.symm⟩
    · simp at h

/-- The period loop keeps `periods_requested` duplicate-free. -/
theorem periodLoop_reqd_nodup (dflt : Nat) (tms : List Nat) (scr : List Tx)
    (st0 : PLState) (pl : PLOut) (h : periodLoop dflt tms scr st0 = .ok pl)
    (h0 : st0.reqd.Nodup) : pl.reqd.Nodup := by
  unfold periodLoop at h
  exact periodLoopGo_reqd_nodup dflt _ _ _ _ _ h0 h

/-- Every terminating `get_codes` call requests each distinct period at
most once: the final `periods_requested` is duplicate-free. -/
theorem get_codes_reqd_nodup (st : OathState) (w : World) (out : RunOut)
    (h : get_codes st w = .ok out) : out.reqd.Nodup := by
  unfold get_codes at h
  repeat' (first | (split at h) | (simp only [] at h))
  all_goals try (exact Except.noConfusion h)
  all_goals (injection h with h; rw [← h])
  all_goals try (exact List.nodup_nil)
  all_goals exact periodLoop_reqd_nodup _ _ _ _ _ (by assumption) List.nodup_nil

/-- A list without a newline is unchanged by `dropFinalNewline`. -/
theorem dropFinalNewline_of_not_mem (l : List Char) (h : '\n' ∉ l) :
    dropFinalNewline l = l := by
  rw [dropFinalNewline, if_neg]
  intro hc
  exact h (List.mem_of_mem_getLast? hc)

/-- The empty pattern occurs in every list. -/
theorem containsSub_nil (s : List Char) : containsSub [] s = true := by
  cases s <;> rfl

/-- Two strings whose first characters differ are different; applied to
messages of the shape `pre ++ hex ++ hex ++ suf`. -/
theorem string_append3_ne_head (p a b suf q : String) (c d : Char)
    (cs ds : List Char) (hp : p.data = c :: cs) (hq : q.data = d :: ds)
    (hcd : c ≠ d) : p ++ a ++ b ++ suf ≠ q := by
  intro h
  have hdata := congrArg String.data h
  rw [String.data_append, String.data_append, String.data_append, hp, hq] at hdata
  simp at hdata
  exact hcd hdata.1

/-- A message of the shape `pre ++ hex ++ hex ++ suf` differs from any
string of the wrong length. -/
theorem hexMsg_ne (pre suf a b q : String) (ha : a.length = 2)
    (hb : b.length = 2) (hq : q.length ≠ pre.length + 4 + suf.length) :
    pre ++ a ++ b ++ suf ≠ q := by
  intro hc
  have hl := congrArg String.length hc
  rw [String.length_append, String.length_append, String.length_append,
    ha, hb] at hl
  omega

/-- No AID-selection failure message is a reader message or an
authentication message. -/
theorem selBreakMsg_ne (m : String) (h : selBreakMsg m) :
    m ≠ "no readers" ∧ m ≠ "no matching readers" ∧ m ≠ "password required" ∧
    m ≠ "password set but no password required" ∧ m ≠ "authentication failed" := by
  rcases h with h | ⟨e, h⟩ | h | ⟨a, b, ha, hb, h⟩ <;> subst h <;>
    first
      | exact ⟨by decide, by decide, by decide, by decide, by decide⟩
      | exact ⟨string_append_ne _ _ _ (by decide) (by decide),
               string_append_ne _ _ _ (by decide) (by decide),
               string_append_ne _ _ _ (by decide) (by decide),
               string_append_ne _ _ _ (by decide) (by decide),
               string_append_ne _ _ _ (by decide) (by decide)⟩
      | exact ⟨hexMsg_ne _ _ _ _ _ ha hb (by decide),
               hexMsg_ne _ _ _ _ _ ha hb (by decide),
               hexMsg_ne _ _ _ _ _ ha hb (by decide),
               hexMsg_ne _ _ _ _ _ ha hb (by decide),
               hexMsg_ne _ _ _ _ _ ha hb (by decide)⟩

/-- No period-loop failure message is a reader message or an
authentication message. -/
theorem plBreakMsg_ne (m : String) (h : plBreakMsg m) :
    m ≠ "no readers" ∧ m ≠ "no matching readers" ∧ m ≠ "password required" ∧
    m ≠ "password set but no password required" ∧ m ≠ "authentication failed" := by
  rcases h with ⟨e, h⟩ | h | h | ⟨a, b, ha, hb, h⟩ | h | h | h | h | h | h | h <;>
    subst h <;>
    first
      | exact ⟨by decide, by decide, by decide, by decide, by decide⟩
      | exact ⟨string_append_ne _ _ _ (by decide) (by decide),
               string_append_ne _ _ _ (by decide) (by decide),
               string_append_ne _ _ _ (by decide) (by decide),
               string_append_ne _ _ _ (by decide) (by decide),
               string_append_ne _ _ _ (by decide) (by decide)⟩
      | exact ⟨hexMsg_ne _ _ _ _ _ ha hb (by decide),
               hexMsg_ne _ _ _ _ _ ha hb (by decide),
               hexMsg_ne _ _ _ _ _ ha hb (by decide),
               string_append3_ne_head _ _ _ _ _ 'e' 'p' ("rror ".data)
                 ("assword set but no password required".data)
                 (by decide) (by decide) (by decide),
               hexMsg_ne _ _ _ _ _ ha hb (by decide)⟩

/-- No quiet authentication failure message is a reader message. -/
theorem authQuietMsg_ne_reader (m : String) (h : authQuietMsg m) :
    m ≠ "no readers" ∧ m ≠ "no matching readers" := by
  rcases h with h | h | h | h | h | h | h | ⟨a, b, ha, hb, h⟩ <;> subst h <;>
    first
      | exact ⟨by decide, by decide⟩
      | exact ⟨hexMsg_ne _ _ _ _ _ ha hb (by decide),
               hexMsg_ne _ _ _ _ _ ha hb (by decide)⟩

/-- Wrapper of `periodLoopGo_errmsg` for the canonical fuel. -/
theorem periodLoop_errmsg (dflt : Nat) (tms : List Nat) (scr : List Tx)
    (st0 : PLState) (pl : PLOut) (m : String)
    (h : periodLoop dflt tms scr st0 = .ok pl) (hm : pl.errmsg = some m) :
    plBreakMsg m := by
  unfold periodLoop at h
  exact periodLoopGo_errmsg dflt _ _ _ _ _ _ h hm

/-- Two strings whose first characters differ are different, the first
given as a nonempty string followed by arbitrary appended text. -/
theorem string_ne_of_head (p e q : String)
    (h : p.data.head? ≠ q.data.head?) (hp : p.data ≠ []) : p ++ e ≠ q := by
  intro hc
  apply h
  have hd := congrArg String.data hc
  rw [String.data_append] at hd
  rw [← hd]
  cases hp2 : p.data with
  | nil => exact absurd hp2 hp
  | cons c cs => simp [hp2]

/-- Claim C8 (amended): whenever `get_codes` fails with one of the two
reader-acquisition messages (`"no readers"` / `"no matching readers"`),
the returned critical flag is `True` — neither failure site assigns
`errcritical`, which was initialized `True` and cannot have been
modified yet — not `False` as the original claim states. -/
theorem claim_C8_amended (st : OathState) (w : World) (out : RunOut)
    (h : get_codes st w = .ok out)
    (hm : out.errmsg = some "no readers" ∨ out.errmsg = some "no matching readers") :
    out.errcritical = some true := by
  unfold get_codes at h
  repeat' (first | (split at h) | (simp only [] at h))
  all_goals try (exact Except.noConfusion h)
  all_goals (injection h with h; subst h)
  all_goals try rfl
  all_goals simp at hm
  all_goals
    (first
      | (have hsel := selectAids_fail_msg _ _ _ _ (by assumption)
         have hne := selBreakMsg_ne _ hsel
         rcases hm with hm | hm
         · exact absurd hm hne.1
         · exact absurd hm hne.2.1)
      | (have hau := authPhase_fail _ _ _ _ _ _ _ _ _ _ (by assumption)
         rcases hau with ⟨hq, _⟩ | ⟨e, he⟩ | he
         · have hne := authQuietMsg_ne_reader _ hq
           rcases hm with hm | hm
           · exact absurd hm hne.1
           · exact absurd hm hne.2
         · subst he
           rcases hm with hm | hm <;>
             exact absurd hm (string_append_ne _ _ _ (by decide) (by decide))
         · subst he
           rcases hm with hm | hm <;> exact absurd hm (by decide))
      | (have hplm := periodLoop_errmsg _ _ _ _ _ _ (by assumption) (by assumption)
         have hne := plBreakMsg_ne _ hplm
         rcases hm with hm | hm
         · exact absurd hm hne.1
         · exact absurd hm hne.2.1)
      | (have hu := untlvDict_error_msg _ _ (by assumption)
         rcases hu with hu | hu <;> subst hu <;> rcases hm with hm | hm <;>
           exact absurd hm (by decide)))

/-! ## Claim theorems (concrete evaluations) -/

/-- Claim C1, evaluation of the code at the failing input: on a fully
successful transaction (`wSuccess`) the success path `break`s out of
the `while True` loop past the cleanup block, so the card connection
acquired during the transaction (`connectOk` in the trace) is never
disconnected before `get_codes` returns — contradicting the claim that
every terminal outcome disconnects the card. -/
theorem claim_C1_code_evaluation :
    ∃ out : RunOut, get_codes initState wSuccess = .ok out ∧
      out.errmsg = none ∧ Ev.connectOk ∈ out.trace ∧ Ev.disconnect ∉ out.trace ∧
      out.state.hcontext = some 1 :=
  ⟨⟨none, some true, [], ⟨"", ["R1"], some "R1", some 1, "", 30⟩, [.connectOk], [30]⟩,
   rfl, rfl, by decide, by decide, rfl⟩

/-- Claim C2, counterexample: when the applet demands a password and
none is configured (`wPwdReq`), `get_codes` fails with
`"password required"` but the critical flag is `True` (its initial
value, never reassigned on this path), not `False` as the claim
states. -/
theorem claim_C2_counterexample :
    ∃ out : RunOut, get_codes initState wPwdReq = .ok out ∧
      out.errmsg = some "password required" ∧ out.errcritical ≠ some false :=
  ⟨⟨some "password required", some true, [], ⟨"", ["R1"], some "R1", none, "", 30⟩,
    [.connectOk, .disconnect, .release], []⟩, rfl, rfl, by decide⟩

/-- Claim C3, evaluation of the code at the failing input: a response
whose third TLV is CODE-tagged where a NAME is expected (`wPartial`)
makes the decode loop break after appending one account, and
`get_codes` returns that non-empty partial account list together with
the error message — contradicting the claim that an error is always
accompanied by an empty account list. -/
theorem claim_C3_code_evaluation :
    ∃ out : RunOut, get_codes initState wPartial = .ok out ∧
      out.errmsg = some "Malformed APDU response: unexpected tag" ∧
      out.codes ≠ [] :=
  ⟨⟨some "Malformed APDU response: unexpected tag", some true,
    [⟨"Acme", "alice", "000258", 1020, 20⟩],
    ⟨"", ["R1"], some "R1", none, "", 30⟩,
    [.connectOk, .disconnect, .release], [30]⟩, rfl, rfl, by decide⟩

/-- Claim C4, evaluation of the code at the failing input: an account
name carrying the explicit period prefix `0` (`"0/A:b"`, world
`wCrash`) enqueues period 0, and the next round's
`int(now // period)` raises an uncaught `ZeroDivisionError` instead of
returning the `(errmsg, critical, codes)` triple. -/
theorem claim_C4_code_evaluation :
    get_codes initState wCrash = .error "ZeroDivisionError" := rfl

/-- Claim C5, counterexample: for the NAME value `"Acme:60/alice"` —
exactly the claimed shape `issuer:period/account` — queried at the
default period 30, the code does not extract period 60 (the period
regex is applied to the part before the colon), does not enqueue 60,
and decodes the pair in the current round with account text
`"60/alice"` instead of deferring it. -/
theorem claim_C5_counterexample :
    ∃ out : RunOut, get_codes initState wC5 = .ok out ∧
      out.reqd = [30] ∧ (60 : Nat) ∉ out.reqd ∧
      out.codes = [⟨"Acme", "60/alice", "000001", 1020, 20⟩] :=
  ⟨⟨none, some true, [⟨"Acme", "60/alice", "000001", 1020, 20⟩],
    ⟨"", ["R1"], some "R1", some 1, "", 30⟩, [.connectOk], [30]⟩,
   rfl, rfl, by decide, rfl⟩

/-- Claim C6: for every tag byte and every byte-string value, decoding
the TLV encoding of `(tag, value)` yields exactly the single pair
`(tag, value)` back, including values whose length crosses the `0xFF`
boundary. -/
theorem claim_C6 (t : Nat) (v : Bytes) (ht : t < 256) (hv : ∀ b ∈ v, b < 256) :
    untlv (tlv t v) = .ok [(t, v)] := untlv_tlv t v

set_option maxRecDepth 4000 in
/-- Witness for C6 at tag `0x71` and a 300-byte value, whose length
crosses the `0xFF` boundary into the two-byte extended length form. -/
theorem claim_C6_witness :
    untlv (tlv 0x71 (List.replicate 300 7)) = .ok [(0x71, List.replicate 300 7)] :=
  claim_C6 0x71 (List.replicate 300 7) (by decide)
    (fun b hb => by rw [List.eq_of_mem_replicate hb]; decide)

/-- Claim C8, counterexample: with no PC/SC readers attached the
transaction fails with `"no readers"` but the critical flag is `True`
(never reassigned on this path), not `False` as the claim states. -/
theorem claim_C8_counterexample :
    ∃ out : RunOut, get_codes initState wC8 = .ok out ∧
      out.errmsg = some "no readers" ∧ out.errcritical ≠ some false :=
  ⟨⟨some "no readers", some true, [], ⟨"", [], none, some 1, "", 30⟩, [], []⟩,
   rfl, rfl, by decide⟩

/-- Claim C9, counterexample: an empty configured pattern arriving
through the `SETRDR` command is replaced by `default_reader = "0"`, so
with one attached reader named `"ABC"` no reader matches and the
transaction fails with `"no matching readers"` — the first reader is
not selected. -/
theorem claim_C9_counterexample :
    ∃ out : RunOut, get_codes (setrdrCommand initState "") wC9 = .ok out ∧
      out.errmsg = some "no matching readers" ∧ out.state.reader = none :=
  ⟨⟨some "no matching readers", some true, [],
    ⟨"0", ["ABC"], none, some 1, "", 30⟩, [], []⟩, rfl, rfl, rfl⟩

/-- Claim C10: for every CODE value whose first byte `d` satisfies
`6 ≤ d ≤ 10` and whose remaining bytes form the big-endian payload,
the decoded decimal code equals the payload masked to 31 bits, reduced
mod `10^d`, rendered in decimal and zero-padded on the left (the
spec's `zfill` formula), and its length is exactly `d` characters. -/
theorem claim_C10 (d : Nat) (payload : Bytes) (h6 : 6 ≤ d) (h10 : d ≤ 10) :
    codeStr d payload = specCodeStr d payload ∧ (codeStr d payload).length = d := by
  constructor
  · rfl
  · have hlt : (beBytes payload &&& 0x7fffffff) % 10 ^ d < 10 ^ d :=
      Nat.mod_lt _ (by positivity)
    have hle := pyStr_length_le d _ hlt (by omega)
    rw [codeStr]
    generalize pyStr ((beBytes payload &&& 0x7fffffff) % 10 ^ d) = s at hle ⊢
    rw [pyRjust]
    split
    · rw [String.length_append]
      show (List.replicate (d - s.length) '0').length + s.length = d
      rw [List.length_replicate]
      omega
    · omega

/-- Witness for C10 at `d = 6`, payload `[1, 2]`. -/
theorem claim_C10_witness :
    codeStr 6 [1, 2] = specCodeStr 6 [1, 2] ∧ (codeStr 6 [1, 2]).length = 6 :=
  claim_C10 6 [1, 2] (by decide) (by decide)

/-- Witness for the amended C8: with no attached readers `get_codes`
returns the `"no readers"` outcome, whose critical flag is `True`. -/
theorem claim_C8_amended_witness :
    (⟨some "no readers", some true, [], ⟨"", [], none, some 1, "", 30⟩, [], []⟩ :
      RunOut).errcritical = some true :=
  claim_C8_amended initState wC8
    ⟨some "no readers", some true, [], ⟨"", [], none, some 1, "", 30⟩, [], []⟩
    rfl (Or.inl rfl)

/-- Claim C7: the period loop requests each distinct period at most
once on every terminating run (`periods_requested` is duplicate-free),
and on the concrete two-period scenario — the period-30 round
discovers an account on period 60, whose round references period 30
again — the loop performs exactly the two queries `[30, 60]` and
terminates successfully. -/
theorem claim_C7 :
    (∀ (st : OathState) (w : World) (out : RunOut),
        get_codes st w = .ok out → out.reqd.Nodup) ∧
      (get_codes initState wC7).map (fun o => (o.errmsg, o.reqd)) =
        .ok (none, [30, 60]) :=
  ⟨get_codes_reqd_nodup, rfl⟩

/-- Witness for C7: its universal half applied to the fully successful
transaction, whose single requested period gives a duplicate-free
list. -/
theorem claim_C7_witness : ([30] : List Nat).Nodup :=
  claim_C7.1 initState wSuccess
    ⟨none, some true, [], ⟨"", ["R1"], some "R1", some 1, "", 30⟩, [.connectOk], [30]⟩
    rfl

/-- Claim C2 (amended): whenever `get_codes` fails with one of the
three authentication-failure messages — password required but not
configured, password configured but none required, or authentication
failed — the returned critical flag is simply the value the flag last
had: `True` unless an earlier candidate AID was rejected with
NOT_FOUND during the selection loop (`selectNotFound` in the trace),
in which case it is the leftover `False`.  The three failure sites
themselves never assign `errcritical`. -/
theorem claim_C2_amended (st : OathState) (w : World) (out : RunOut)
    (h : get_codes st w = .ok out)
    (hm : out.errmsg = some "password required" ∨
          out.errmsg = some "password set but no password required" ∨
          out.errmsg = some "authentication failed") :
    out.errcritical = some (decide (Ev.selectNotFound ∉ out.trace)) := by
  unfold get_codes at h
  repeat' (first | (split at h) | (simp only [] at h))
  all_goals try (exact Except.noConfusion h)
  all_goals (injection h with h; subst h)
  all_goals try (simp at hm)
  all_goals
    (first
      | (rcases hm with hm | hm | hm <;>
           exact absurd hm (string_ne_of_head _ _ _ (by decide) (by decide)))
      | (have hsel := selectAids_fail_msg _ _ _ _ (by assumption)
         have hne := selBreakMsg_ne _ hsel
         rcases hm with hm | hm | hm
         · exact absurd hm hne.2.2.1
         · exact absurd hm hne.2.2.2.1
         · exact absurd hm hne.2.2.2.2)
      | (have hplm := periodLoop_errmsg _ _ _ _ _ _ (by assumption) (by assumption)
         have hne := plBreakMsg_ne _ hplm
         rcases hm with hm | hm | hm
         · exact absurd hm hne.2.2.1
         · exact absurd hm hne.2.2.2.1
         · exact absurd hm hne.2.2.2.2)
      | (have hu := untlvDict_error_msg _ _ (by assumption)
         rcases hu with hu | hu <;> subst hu <;>
           rcases hm with hm | hm | hm <;> simp at hm)
      | (rcases authPhase_fail _ _ _ _ _ _ _ _ _ _ (by assumption) with
           ⟨hq, hcu⟩ | ⟨e, he⟩ | he
         · subst hcu
           cases hsnf : (selectAids w.transmits false oathAids).sawNotFound <;>
             simp [cleanup, hsnf]
         · subst he
           rcases hm with hm | hm | hm <;>
             exact absurd hm (string_ne_of_head _ _ _ (by decide) (by decide))
         · subst he
           rcases hm with hm | hm | hm <;> simp at hm))

/-- Witness for the amended C2: the applet demands a password, none is
configured, the single AID was accepted on the first try (`wPwdReq`) —
the `"password required"` failure carries the critical flag `True` and
no `selectNotFound` in its trace. -/
theorem claim_C2_amended_witness :
    (⟨some "password required", some true, [], ⟨"", ["R1"], some "R1", none, "", 30⟩,
      [.connectOk, .disconnect, .release], []⟩ : RunOut).errcritical =
      some (decide (Ev.selectNotFound ∉
        ([.connectOk, .disconnect, .release] : List Ev))) :=
  claim_C2_amended initState wPwdReq
    ⟨some "password required", some true, [], ⟨"", ["R1"], some "R1", none, "", 30⟩,
      [.connectOk, .disconnect, .release], []⟩
    rfl (Or.inl rfl)

/-- Claim C9 (amended): `set_readers_regex("")` itself does make every
(newline-free) reader name match — the embedded pattern is
`"^.*.*$"` — so the first attached reader is selected; but an empty
pattern delivered through the `SETRDR` command is replaced by
`default_reader = "0"` before reaching `set_readers_regex`, so
end-to-end an empty configured pattern selects only readers whose
name contains `"0"`. -/
theorem claim_C9_amended (st : OathState) (r : String) (rs : List String)
    (hr : '\n' ∉ r.toList) :
    readerMatch "" r = true ∧
    resolveReader "" (r :: rs) = some r ∧
    setrdrCommand st "" = set_readers_regex st "0" := by
  have h1 : readerMatch "" r = true := by
    unfold readerMatch
    rw [dropFinalNewline_of_not_mem _ hr]
    simp [containsSub_nil]
    exact hr
  refine ⟨h1, ?_, rfl⟩
  rw [resolveReader]
  exact List.find?_cons_of_pos _ h1

/-- Witness for the amended C9 at reader list `["ABC", "Z"]`. -/
theorem claim_C9_amended_witness :
    readerMatch "" "ABC" = true ∧ resolveReader "" ["ABC", "Z"] = some "ABC" ∧
      setrdrCommand initState "" = set_readers_regex initState "0" :=
  claim_C9_amended initState "ABC" ["Z"] (by decide)

/-- Mapping a list of ASCII characters to bytes and decoding it back is
the identity. -/
theorem decodeAscii_map (s : List Char) (h : ∀ c ∈ s, c.toNat < 128) :
    decodeAscii (s.map Char.toNat) = some s := by
  rw [decodeAscii, if_pos]
  · congr 1
    rw [List.map_map]
    exact List.map_congr_left (fun c _ => Char.ofNat_toNat c) |>.trans (List.map_id s)
  · rw [List.all_eq_true]
    intro b hb
    rcases List.mem_map.mp hb with ⟨c, hc, rfl⟩
    exact decide_eq_true (h c hc)

/-- Group 3 of the name regex is the account text itself when it is
nonempty, colon-free and carries no trailing whitespace. -/
theorem acctGroup_eq (as : List Char) (h0 : as ≠ []) (hc : ':' ∉ as)
    (hs : pyRstrip as = as) : acctGroup as = some as := by
  show (if pyRstrip as ≠ [] ∧ ':' ∉ (pyRstrip as).dropLast then some (pyRstrip as)
        else none) = some as
  rw [hs, if_pos ⟨h0, fun hmem => hc (List.dropLast_subset as hmem)⟩]

/-- `filterMap` over a list whose only productive element is `m`. -/
theorem filterMap_three {α β : Type _} (f : α → Option β) (A : List α) (m : α)
    (C : List α) (b : β) (hA : ∀ a ∈ A, f a = none) (hC : ∀ a ∈ C, f a = none)
    (hm : f m = some b) : List.filterMap f (A ++ m :: C) = [b] := by
  rw [List.filterMap_append, List.filterMap_eq_nil_iff.mpr hA,
    List.filterMap_cons_some hm, List.filterMap_eq_nil_iff.mpr hC]
  rfl

/-- A string with exactly one colon has exactly one colon split. -/
theorem colonSplits_single (pre as : List Char) (hp : ':' ∉ pre) (ha : ':' ∉ as) :
    colonSplits (pre ++ ':' :: as) = [(pre, as)] := by
  have hlen : (pre ++ ':' :: as).length = pre.length + 1 + as.length := by
    simp
    omega
  have hL : (List.range (pre.length + 1 + as.length)).reverse =
      ((List.range as.length).map (fun j => pre.length + 1 + j)).reverse ++
        pre.length :: (List.range pre.length).reverse := by
    rw [List.range_add, List.range_succ, List.reverse_append, List.reverse_append]
    simp
  rw [colonSplits, hlen, hL]
  refine filterMap_three _ _ _ _ _ ?_ ?_ ?_
  · intro k hk
    rcases List.mem_map.mp (List.mem_reverse.mp hk) with ⟨j, hj, rfl⟩
    rw [if_neg]
    intro hget
    have hassoc : pre ++ ':' :: as = (pre ++ [':']) ++ as := by simp
    rw [hassoc, List.get?_append_right (by simp)] at hget
    exact ha (List.get?_mem hget)
  · intro k hk
    have hklt : k < pre.length := List.mem_range.mp (List.mem_reverse.mp hk)
    rw [if_neg]
    intro hget
    rw [List.get?_append hklt] at hget
    exact hp (List.get?_mem hget)
  · rw [if_pos]
    · have hassoc : pre ++ ':' :: as = (pre ++ [':']) ++ as := by simp
      rw [List.take_left, hassoc]
      have hlen2 : pre.length + 1 = (pre ++ [':']).length := by simp
      rw [hlen2, List.drop_left]
    · rw [List.get?_append_right (Nat.le_refl _)]
      simp

/-- On a single-colon name the regex binds group 2 to the part before
the colon and group 3 to the account text after it. -/
theorem nameGroups_single (pre as : List Char) (hp : ':' ∉ pre) (hnl : '\n' ∉ pre)
    (ha : ':' ∉ as) (h0 : as ≠ []) (hs : pyRstrip as = as) :
    nameGroups (pre ++ ':' :: as) = some (pre, as) := by
  rw [nameGroups, colonSplits_single pre as hp ha]
  rw [List.find?_cons_of_pos]
  · show some (pre, (acctGroup as).getD []) = some (pre, as)
    rw [acctGroup_eq as h0 ha hs]
    rfl
  · rw [acctGroup_eq as h0 ha hs]
    simp [hnl]

/-- `takeWhile isDigit` stops exactly at the end of a leading digit
run. -/
theorem takeWhile_digit_append (ds r : List Char)
    (h : ∀ c ∈ ds, c.isDigit = true) (hr : r.takeWhile Char.isDigit = []) :
    (ds ++ r).takeWhile Char.isDigit = ds := by
  induction ds with
  | nil => simpa using hr
  | cons c cs ih =>
    rw [List.cons_append, List.takeWhile_cons,
      if_pos (h c (List.mem_cons_self c cs))]
    rw [ih (fun x hx => h x (List.mem_cons_of_mem c hx))]

/-- The period regex splits `digits/rest` into the period value and the
rest. -/
theorem periodSplit_eq (ds r : List Char) (hds : ds ≠ [])
    (hdig : ∀ c ∈ ds, c.isDigit = true) :
    periodSplit (ds ++ '/' :: r) = some (natOfDigits ds, r) := by
  have htw : (ds ++ '/' :: r).takeWhile Char.isDigit = ds :=
    takeWhile_digit_append ds ('/' :: r) hdig (by rw [List.takeWhile_cons]; simp)
  show (match (ds ++ '/' :: r).drop ((ds ++ '/' :: r).takeWhile Char.isDigit).length
          with
        | '/' :: rest =>
          if (ds ++ '/' :: r).takeWhile Char.isDigit = [] then none
          else some (natOfDigits ((ds ++ '/' :: r).takeWhile Char.isDigit), rest)
        | _ => none) = some (natOfDigits ds, r)
  rw [htw, List.drop_left]
  simp [hds]

/-- The NAME branch on a value of the form `period/issuer:account`: the
period prefix is stripped from the part before the colon, the remaining
pre-colon text is bound to the source's `issuer` slot (the local
`account`), and the post-colon text to the source's `account` slot (the
local `issuer`). -/
theorem parseName_period (ds is as : List Char) (dflt : Nat)
    (hds : ds ≠ []) (hdig : ∀ c ∈ ds, c.isDigit = true)
    (his : '\n' ∉ is) (hisc : ':' ∉ is)
    (h0 : as ≠ []) (hasc : ':' ∉ as) (hstrip : pyRstrip as = as)
    (hascii : ∀ c ∈ (ds ++ '/' :: is) ++ ':' :: as, c.toNat < 128) :
    parseName (((ds ++ '/' :: is) ++ ':' :: as).map Char.toNat) dflt =
      .ok (is, as, natOfDigits ds) := by
  have hp : ':' ∉ ds ++ '/' :: is := by
    intro hmem
    rcases List.mem_append.mp hmem with hmem | hmem
    · have := hdig _ hmem
      simp at this
    · rcases List.mem_cons.mp hmem with hmem | hmem
      · exact absurd hmem (by decide)
      · exact hisc hmem
  have hnl : '\n' ∉ ds ++ '/' :: is := by
    intro hmem
    rcases List.mem_append.mp hmem with hmem | hmem
    · have := hdig _ hmem
      simp at this
    · rcases List.mem_cons.mp hmem with hmem | hmem
      · exact absurd hmem (by decide)
      · exact his hmem
  simp only [parseName, decodeAscii_map _ hascii,
    nameGroups_single _ _ hp hnl hasc h0 hstrip,
    periodSplit_eq ds is hds hdig]

/-- Unfolding one non-breaking step of the enumerate loop. -/
theorem procTlvs_cons_next (period dflt now k t : Nat) (v : Bytes)
    (rest : List (Nat × Bytes)) (st st1 : PLState)
    (h : procStep period dflt now k t v st = .next st1) :
    procTlvs period dflt now k ((t, v) :: rest) st =
      procTlvs period dflt now (k + 1) rest st1 := by
  rw [procTlvs, h]

/-- The NAME step at an even index: a foreign unseen period is appended
to `periods_to_request` and no code is decoded. -/
theorem procStep_name (period dflt now k : Nat) (v : Bytes) (st : PLState)
    (nmA nmB : List Char) (ap : Nat)
    (hp : parseName v dflt = .ok (nmA, nmB, ap))
    (hne : ap ≠ period) (h1 : ap ∉ st.reqd) (h2 : ap ∉ st.toReq)
    (hk : k % 2 = 0) :
    procStep period dflt now k 0x71 v st =
      .next { st with i := (k : Int), nmA := nmA, nmB := nmB, accPer := ap,
                      toReq := st.toReq ++ [ap] } := by
  unfold procStep
  rw [if_neg (by simp [hk])]
  rw [if_pos (by decide)]
  rw [hp]
  simp only []
  rw [if_pos ⟨hne, h1, h2⟩]

/-- The CODE step at an odd index when the pending account's period is
not the round's: the pair is skipped, nothing is appended to
`oath_codes`. -/
theorem procStep_skip (period dflt now k : Nat) (cv : Bytes) (st : PLState)
    (hk : k % 2 = 1) (hap : st.accPer ≠ period) :
    procStep period dflt now k 0x76 cv st = .next { st with i := (k : Int) } := by
  unfold procStep
  rw [if_neg (by simp [hk])]
  rw [if_neg (by decide)]
  rw [if_pos hap]

/-- A NAME/CODE pair whose parsed period is foreign and unseen:
the period is enqueued and the code decoding is skipped. -/
theorem procTlvs_enqueue_skip (period dflt now k : Nat) (v cv : Bytes)
    (st : PLState) (nmA nmB : List Char) (ap : Nat)
    (hp : parseName v dflt = .ok (nmA, nmB, ap))
    (hne : ap ≠ period) (h1 : ap ∉ st.reqd) (h2 : ap ∉ st.toReq)
    (hk : k % 2 = 0) :
    procTlvs period dflt now k [(0x71, v), (0x76, cv)] st =
      ({ st with toReq := st.toReq ++ [ap], nmA := nmA, nmB := nmB,
                 accPer := ap, i := ((k + 1 : Nat) : Int) }, none) := by
  have hk1 : (k + 1) % 2 = 1 := by omega
  rw [procTlvs_cons_next _ _ _ _ _ _ _ _ _
    (procStep_name period dflt now k v st nmA nmB ap hp hne h1 h2 hk)]
  rw [procTlvs_cons_next _ _ _ _ _ _ _ _ _
    (procStep_skip period dflt now (k + 1) cv _ hk1 hne)]
  rw [procTlvs]

/-- Claim C5 (amended): the explicit period prefix is extracted from
the text BEFORE the colon — the real NAME format is
`[period/]issuer:account`, not `issuer:[period/]account`.  For every
NAME value `digits/issuer:account` the digits before the slash are
parsed as that account's period; when that period differs from the one
just queried and has not yet been queried or enqueued, the enumerate
loop enqueues it and skips the pair's code decoding in the current
round (`oath_codes` is unchanged). -/
theorem claim_C5_amended (period dflt now k : Nat) (ds is as : List Char)
    (cv : Bytes) (st : PLState)
    (hds : ds ≠ []) (hdig : ∀ c ∈ ds, c.isDigit = true)
    (his : '\n' ∉ is) (hisc : ':' ∉ is)
    (h0 : as ≠ []) (hasc : ':' ∉ as) (hstrip : pyRstrip as = as)
    (hascii : ∀ c ∈ (ds ++ '/' :: is) ++ ':' :: as, c.toNat < 128)
    (hne : natOfDigits ds ≠ period) (h1 : natOfDigits ds ∉ st.reqd)
    (h2 : natOfDigits ds ∉ st.toReq) (hk : k % 2 = 0) :
    parseName (((ds ++ '/' :: is) ++ ':' :: as).map Char.toNat) dflt =
      .ok (is, as, natOfDigits ds) ∧
    procTlvs period dflt now k
        [(0x71, ((ds ++ '/' :: is) ++ ':' :: as).map Char.toNat), (0x76, cv)] st =
      ({ st with toReq := st.toReq ++ [natOfDigits ds], nmA := is, nmB := as,
                 accPer := natOfDigits ds, i := ((k + 1 : Nat) : Int) }, none) := by
  have hp := parseName_period ds is as dflt hds hdig his hisc h0 hasc hstrip hascii
  exact ⟨hp, procTlvs_enqueue_skip period dflt now k _ cv st is as _ hp hne h1 h2 hk⟩

/-- Witness for the amended C5 at the NAME value `"60/Acme:alice"`,
queried at period 30: period 60 is parsed from the pre-colon text,
enqueued, and the pair is skipped. -/
theorem claim_C5_amended_witness :
    parseName (((['6', '0'] ++ '/' :: ['A', 'c', 'm', 'e']) ++
        ':' :: ['a', 'l', 'i', 'c', 'e']).map Char.toNat) 30 =
      .ok (['A', 'c', 'm', 'e'], ['a', 'l', 'i', 'c', 'e'], 60) ∧
    procTlvs 30 30 1000 0
        [(0x71, ((['6', '0'] ++ '/' :: ['A', 'c', 'm', 'e']) ++
          ':' :: ['a', 'l', 'i', 'c', 'e']).map Char.toNat), (0x76, [6, 1])]
        ⟨[], [30], [], -1, [], [], 0⟩ =
      (⟨[60], [30], [], 1, ['A', 'c', 'm', 'e'], ['a', 'l', 'i', 'c', 'e'], 60⟩,
       none) :=
  claim_C5_amended 30 30 1000 0 ['6', '0'] ['A', 'c', 'm', 'e']
    ['a', 'l', 'i', 'c', 'e'] [6, 1] ⟨[], [30], [], -1, [], [], 0⟩
    (by decide) (by decide) (by decide) (by decide) (by decide) (by decide)
    (by decide) (by decide) (by decide) (by decide) (by decide) (by decide)

end Vivokey
